import Mathlib

/-!
Verification of the symbol-bootstrap network configuration and genesis
generator.  The definitions below are a shallow embedding of the
TypeScript sources `src/service/ConfigService.ts` and
`src/service/ComposeService.ts`.  JavaScript numbers used for mosaic
supplies and amounts are modelled as `Int` (all the values involved are
integers well below 2^53, so JS arithmetic on them is exact); fallible
code paths are modelled with `Except String`.
-/

namespace SymbolBootstrap

/-- A single token distribution entry, `{address, amount}` in
`ConfigService.generateRandomConfiguration`. -/
structure CurrencyDistribution where
  address : String
  amount : Int
  deriving Repr, DecidableEq

/-- The slice of a nemesis mosaic preset relevant to distribution
generation: `m.supply` and the optional explicit
`m.currencyDistributions` (`undefined` is `none`). -/
structure MosaicPreset where
  supply : Int
  currencyDistributions : Option (List CurrencyDistribution)
  deriving Repr, DecidableEq

/-- Adds `extra` to the amount of the first entry of a distribution list,
mirroring `m.currencyDistributions[0].amount += m.supply - totalAccounts *
amountPerAccount` guarded by `if (m.currencyDistributions.length)` in
`ConfigService.generateRandomConfiguration` (ConfigService.ts lines
238-239). -/
def addToFirst (extra : Int) : List CurrencyDistribution → List CurrencyDistribution
  | [] => []
  | d :: rest => { d with amount := d.amount + extra } :: rest

/-- The generated distribution when a mosaic has no explicit
`currencyDistributions` (ConfigService.ts lines 230-239): `accounts` are
the generated mosaic account addresses (`m.accounts` of them) and
`nodes` are the node signing addresses; each receives
`Math.floor(supply / totalAccounts)` and the first entry absorbs the
remainder. -/
def generateMosaicDistribution (supply : Int) (accounts nodes : List String) :
    List CurrencyDistribution :=
  let totalAccounts : Int := (accounts.length : Int) + (nodes.length : Int)
  let amountPerAccount : Int := Int.fdiv supply totalAccounts
  let base : List CurrencyDistribution :=
    accounts.map (fun a => { address := a, amount := amountPerAccount }) ++
      nodes.map (fun n => { address := n, amount := amountPerAccount })
  addToFirst (supply - totalAccounts * amountPerAccount) base

/-- The distributions a mosaic ends up with: the explicit ones when
supplied, otherwise the generated even split. -/
def mosaicDistributions (m : MosaicPreset) (accounts nodes : List String) :
    List CurrencyDistribution :=
  match m.currencyDistributions with
  | some ds => ds
  | none => generateMosaicDistribution m.supply accounts nodes

/-- Per-mosaic processing in `generateRandomConfiguration`
(ConfigService.ts lines 228-245): fill in the distribution when absent,
then fail when the summed amounts differ from the declared supply. -/
def processMosaic (m : MosaicPreset) (accounts nodes : List String) :
    Except String (List CurrencyDistribution) :=
  let ds := mosaicDistributions m accounts nodes
  let supplied : Int := (ds.map (fun d => d.amount)).sum
  if m.supply ≠ supplied then
    Except.error ("Invalid nemgen total supplied value, expected " ++ toString m.supply ++
      " but total is " ++ toString supplied)
  else
    Except.ok ds

theorem sum_map_const_int {α : Type} (l : List α) (c : Int) :
    (l.map (fun _ => c)).sum = (l.length : Int) * c := by
  induction l with
  | nil => simp
  | cons x xs ih => simp [ih]; ring

theorem addToFirst_map_address (extra : Int) (l : List CurrencyDistribution) :
    (addToFirst extra l).map (fun d => d.address) = l.map (fun d => d.address) := by
  cases l <;> simp [addToFirst]

theorem addToFirst_sum (extra : Int) (d : CurrencyDistribution)
    (rest : List CurrencyDistribution) :
    ((addToFirst extra (d :: rest)).map (fun e => e.amount)).sum =
      (((d :: rest).map (fun e => e.amount)).sum) + extra := by
  simp [addToFirst]; ring

theorem sum_amounts_const (amt : Int) (l : List CurrencyDistribution)
    (h : ∀ d ∈ l, d.amount = amt) :
    (l.map (fun d => d.amount)).sum = (l.length : Int) * amt := by
  induction l with
  | nil => simp
  | cons x xs ih =>
    have hx := h x (List.mem_cons_self x xs)
    have hxs := ih (fun d hd => h d (List.mem_cons_of_mem x hd))
    simp [hx, hxs]
    ring

theorem addToFirst_props (amt extra : Int) (base : List CurrencyDistribution)
    (hamt : ∀ d ∈ base, d.amount = amt) (hne : base ≠ []) :
    ((addToFirst extra base).map (fun d => d.amount)).sum = (base.length : Int) * amt + extra
    ∧ (∀ d ∈ (addToFirst extra base).tail, d.amount = amt)
    ∧ (addToFirst extra base).head?.map (fun d => d.amount) = some (amt + extra) := by
  cases base with
  | nil => exact absurd rfl hne
  | cons b rest =>
    have hb := hamt b (List.mem_cons_self b rest)
    have hrest : (rest.map (fun d => d.amount)).sum = (rest.length : Int) * amt :=
      sum_amounts_const amt rest (fun d hd => hamt d (List.mem_cons_of_mem b hd))
    refine ⟨?_, ?_, ?_⟩
    · simp [addToFirst, hb, hrest]
      ring
    · intro d hd
      simp only [addToFirst, List.tail_cons] at hd
      exact hamt d (List.mem_cons_of_mem b hd)
    · simp [addToFirst, hb]

theorem generateMosaicDistribution_eq (supply : Int) (accounts nodes : List String) :
    generateMosaicDistribution supply accounts nodes =
      addToFirst
        (supply - ((accounts.length : Int) + (nodes.length : Int)) *
            Int.fdiv supply ((accounts.length : Int) + (nodes.length : Int)))
        (accounts.map (fun a =>
            ({ address := a,
               amount := Int.fdiv supply ((accounts.length : Int) + (nodes.length : Int)) } :
              CurrencyDistribution)) ++
          nodes.map (fun n =>
            ({ address := n,
               amount := Int.fdiv supply ((accounts.length : Int) + (nodes.length : Int)) } :
              CurrencyDistribution))) := rfl

theorem processMosaic_error_iff (m : MosaicPreset) (accounts nodes : List String) :
    (∃ e, processMosaic m accounts nodes = Except.error e)
      ↔ m.supply ≠ ((mosaicDistributions m accounts nodes).map (fun d => d.amount)).sum := by
  unfold processMosaic
  by_cases h : m.supply = ((mosaicDistributions m accounts nodes).map (fun d => d.amount)).sum
  · simp [h]
  · simp [h]

/-- C1: when a mosaic has no explicit distribution, the generated
distribution assigns `floor(supply / (accounts + nodes))` to each
generated mosaic account address and each node signing address in that
order, adds the remainder entirely to the first entry, and for any
supply and beneficiary count at least 1 the amounts sum exactly to
`supply`; per-mosaic generation fails exactly when the summed amounts
differ from the declared supply. -/
theorem nemesis_distribution_conservation (supply : Int) (accounts nodes : List String)
    (h : 1 ≤ accounts.length + nodes.length) :
    ((generateMosaicDistribution supply accounts nodes).map (fun d => d.amount)).sum = supply
    ∧ (generateMosaicDistribution supply accounts nodes).map (fun d => d.address)
        = accounts ++ nodes
    ∧ (∀ d ∈ (generateMosaicDistribution supply accounts nodes).tail,
        d.amount = Int.fdiv supply ((accounts.length : Int) + (nodes.length : Int)))
    ∧ ((generateMosaicDistribution supply accounts nodes).head?.map (fun d => d.amount)
        = some (Int.fdiv supply ((accounts.length : Int) + (nodes.length : Int))
            + (supply - ((accounts.length : Int) + (nodes.length : Int)) *
                Int.fdiv supply ((accounts.length : Int) + (nodes.length : Int)))))
    ∧ (∀ m : MosaicPreset,
        (∃ e, processMosaic m accounts nodes = Except.error e)
          ↔ m.supply ≠ ((mosaicDistributions m accounts nodes).map (fun d => d.amount)).sum) := by
  have hbase :
      ∀ d ∈ (accounts.map (fun a =>
          ({ address := a,
             amount := Int.fdiv supply ((accounts.length : Int) + (nodes.length : Int)) } :
            CurrencyDistribution)) ++
        nodes.map (fun n =>
          ({ address := n,
             amount := Int.fdiv supply ((accounts.length : Int) + (nodes.length : Int)) } :
            CurrencyDistribution))),
        d.amount = Int.fdiv supply ((accounts.length : Int) + (nodes.length : Int)) := by
    intro d hd
    rcases List.mem_append.mp hd with hmem | hmem <;>
      · obtain ⟨x, _, rfl⟩ := List.mem_map.mp hmem
        rfl
  have hne :
      (accounts.map (fun a =>
          ({ address := a,
             amount := Int.fdiv supply ((accounts.length : Int) + (nodes.length : Int)) } :
            CurrencyDistribution)) ++
        nodes.map (fun n =>
          ({ address := n,
             amount := Int.fdiv supply ((accounts.length : Int) + (nodes.length : Int)) } :
            CurrencyDistribution))) ≠ [] := by
    intro hnil
    have := congrArg List.length hnil
    simp only [List.length_append, List.length_map, List.length_nil] at this
    omega
  obtain ⟨hsum, htail, hhead⟩ := addToFirst_props
    (Int.fdiv supply ((accounts.length : Int) + (nodes.length : Int)))
    (supply - ((accounts.length : Int) + (nodes.length : Int)) *
        Int.fdiv supply ((accounts.length : Int) + (nodes.length : Int)))
    _ hbase hne
  refine ⟨?_, ?_, ?_, ?_, fun m => processMosaic_error_iff m accounts nodes⟩
  · rw [generateMosaicDistribution_eq, hsum]
    simp only [List.length_append, List.length_map]
    push_cast
    ring
  · rw [generateMosaicDistribution_eq, addToFirst_map_address]
    simp [List.map_map, Function.comp_def]
  · intro d hd
    rw [generateMosaicDistribution_eq] at hd
    exact htail d hd
  · rw [generateMosaicDistribution_eq, hhead]

/-- Witness for `nemesis_distribution_conservation` at supply 10 with two
generated accounts and one node: the generated entries are
`[4, 3, 3]`. -/
theorem nemesis_distribution_conservation_witness :
    ((generateMosaicDistribution 10 ["a", "b"] ["n"]).map (fun d => d.amount)).sum = 10 :=
  (nemesis_distribution_conservation 10 ["a", "b"] ["n"] (by decide)).1

/-- The distribution list after the opt-in balance adjustment in
`ConfigService.generateNemesisConfig` (ConfigService.ts lines 360-373):
each `(address, amount)` entry of the balances map is pushed onto
`currencyMosaic.currencyDistributions`, and the summed opt-in total is
subtracted from the first (residual, "NGL") entry's amount. -/
def optInAdjustedDistributions (ngl : CurrencyDistribution)
    (rest : List CurrencyDistribution) (balances : List (String × Int)) :
    List CurrencyDistribution :=
  { ngl with amount := ngl.amount - (balances.map (fun p => p.2)).sum } ::
    (rest ++ balances.map (fun p => ({ address := p.1, amount := p.2 } : CurrencyDistribution)))

/-- The opt-in balance path of `ConfigService.generateNemesisConfig`
(ConfigService.ts lines 354-392) on the currency mosaic's
distributions.  An empty distribution list makes the JavaScript read
`nglAccount.amount` of `undefined` and abort with a TypeError (line
356); otherwise the balances are appended, the residual entry is
reduced, and the run aborts when the residual amount drops below 1 or
when the final total differs from the declared supply. -/
def applyOptInBalances (distributions : List CurrencyDistribution) (supply : Int)
    (balances : List (String × Int)) : Except String (List CurrencyDistribution) :=
  match distributions with
  | [] => Except.error "TypeError: cannot read amount of undefined"
  | ngl :: rest =>
    let totalOptedInBalance : Int := (balances.map (fun p => p.2)).sum
    let adjusted := optInAdjustedDistributions ngl rest balances
    let currentBalance : Int := (adjusted.map (fun d => d.amount)).sum
    if ngl.amount - totalOptedInBalance < 1 then
      Except.error ("NGL account did not have enough balance (" ++ toString ngl.amount ++
        ") to paid all the supplied optedin namespaces and accounts of " ++
        toString currentBalance)
    else if currentBalance ≠ supply then
      Except.error ("Current supplied balance of " ++ toString currentBalance ++
        " is different from expected supply of " ++ toString supply)
    else
      Except.ok adjusted

theorem optInAdjusted_sum (ngl : CurrencyDistribution) (rest : List CurrencyDistribution)
    (balances : List (String × Int)) :
    ((optInAdjustedDistributions ngl rest balances).map (fun d => d.amount)).sum =
      (((ngl :: rest).map (fun d => d.amount)).sum) := by
  simp [optInAdjustedDistributions, List.map_map, Function.comp_def]

/-- C2: appending opt-in balances totalling `T` leaves the residual
entry with `original - T`, conserves the summed distribution total (so
it still equals the declared supply whenever it did before), and the
operation fails exactly when the post-subtraction residual amount is
below 1 or the summed total differs from the declared supply. -/
theorem optin_balances_adjustment (ngl : CurrencyDistribution)
    (rest : List CurrencyDistribution) (balances : List (String × Int)) (supply : Int) :
    ((optInAdjustedDistributions ngl rest balances).map (fun d => d.amount)).sum
        = (((ngl :: rest).map (fun d => d.amount)).sum)
    ∧ (optInAdjustedDistributions ngl rest balances).head?.map (fun d => d.amount)
        = some (ngl.amount - (balances.map (fun p => p.2)).sum)
    ∧ ((∃ e, applyOptInBalances (ngl :: rest) supply balances = Except.error e)
        ↔ (ngl.amount - (balances.map (fun p => p.2)).sum < 1
            ∨ ((optInAdjustedDistributions ngl rest balances).map (fun d => d.amount)).sum
                ≠ supply))
    ∧ ((((ngl :: rest).map (fun d => d.amount)).sum = supply
        → (applyOptInBalances (ngl :: rest) supply balances
              = Except.ok (optInAdjustedDistributions ngl rest balances)
            ↔ 1 ≤ ngl.amount - (balances.map (fun p => p.2)).sum))) := by
  refine ⟨optInAdjusted_sum ngl rest balances, by simp [optInAdjustedDistributions], ?_, ?_⟩
  · unfold applyOptInBalances
    by_cases h1 : ngl.amount - (balances.map (fun p => p.2)).sum < 1
    · simp [h1]
    · by_cases h2 :
        ((optInAdjustedDistributions ngl rest balances).map (fun d => d.amount)).sum = supply
      · simp [h1, h2]
      · simp [h1, h2]
  · intro hsup
    have hcur :
        ((optInAdjustedDistributions ngl rest balances).map (fun d => d.amount)).sum = supply := by
      rw [optInAdjusted_sum]; exact hsup
    unfold applyOptInBalances
    by_cases h1 : ngl.amount - (balances.map (fun p => p.2)).sum < 1
    · simp [h1]
    · simp [h1, hcur]
      omega


/-- Witness for `optin_balances_adjustment`: a residual entry of 100
with one opt-in balance of 30 succeeds and leaves the residual at
70. -/
theorem optin_balances_adjustment_witness :
    applyOptInBalances [{ address := "ngl", amount := 100 }] 100 [("opt", 30)]
      = Except.ok [{ address := "ngl", amount := 70 }, { address := "opt", amount := 30 }] := by
  have h := (optin_balances_adjustment { address := "ngl", amount := 100 } [] [("opt", 30)]
    100).2.2.2 (by decide)
  have hres := h.mpr (by decide)
  simpa [optInAdjustedDistributions] using hres

/-- The opt-in transaction filtering of
`ConfigService.generateNemesisConfig` (ConfigService.ts lines 332-352):
the entries `(key, payload)` of the transactions map are processed in
order, a content hash is computed per payload (`hash` abstracts
`Transaction.createTransactionHash(payload, generationHashSeed)`), and
an entry whose hash already occurs in the accumulated
`transactionHashes` list is skipped with a warning while the rest are
accepted and persisted. -/
def dedupeTransactions (hash : String → String) :
    List (String × String) → List String → List (String × String)
  | [], _ => []
  | (key, payload) :: rest, transactionHashes =>
    if hash payload ∈ transactionHashes then
      dedupeTransactions hash rest transactionHashes
    else
      (key, payload) :: dedupeTransactions hash rest (transactionHashes ++ [hash payload])

/-- Number of entries skipped as duplicates by the same traversal. -/
def skippedTransactionCount (hash : String → String) :
    List (String × String) → List String → Nat
  | [], _ => 0
  | (_, payload) :: rest, transactionHashes =>
    if hash payload ∈ transactionHashes then
      1 + skippedTransactionCount hash rest transactionHashes
    else
      skippedTransactionCount hash rest (transactionHashes ++ [hash payload])

theorem dedupeTransactions_sublist (hash : String → String) (txs : List (String × String))
    (seen : List String) : (dedupeTransactions hash txs seen).Sublist txs := by
  induction txs generalizing seen with
  | nil => simp [dedupeTransactions]
  | cons t rest ih =>
    obtain ⟨key, payload⟩ := t
    by_cases h : hash payload ∈ seen
    · simp only [dedupeTransactions, if_pos h]
      exact (ih seen).cons (key, payload)
    · simp only [dedupeTransactions, if_neg h]
      exact (ih (seen ++ [hash payload])).cons₂ (key, payload)

theorem dedupeTransactions_not_seen (hash : String → String) (txs : List (String × String))
    (seen : List String) :
    ∀ t ∈ dedupeTransactions hash txs seen, hash t.2 ∉ seen := by
  induction txs generalizing seen with
  | nil => simp [dedupeTransactions]
  | cons t rest ih =>
    obtain ⟨key, payload⟩ := t
    intro u hu
    by_cases h : hash payload ∈ seen
    · rw [dedupeTransactions, if_pos h] at hu
      exact ih seen u hu
    · rw [dedupeTransactions, if_neg h] at hu
      rcases List.mem_cons.mp hu with rfl | hu
      · exact h
      · intro hmem
        exact ih (seen ++ [hash payload]) u hu (List.mem_append_left _ hmem)

theorem dedupeTransactions_hashes_nodup (hash : String → String)
    (txs : List (String × String)) (seen : List String) :
    ((dedupeTransactions hash txs seen).map (fun t => hash t.2)).Nodup := by
  induction txs generalizing seen with
  | nil => simp [dedupeTransactions]
  | cons t rest ih =>
    obtain ⟨key, payload⟩ := t
    by_cases h : hash payload ∈ seen
    · rw [dedupeTransactions, if_pos h]
      exact ih seen
    · rw [dedupeTransactions, if_neg h]
      refine List.nodup_cons.mpr ⟨?_, ih (seen ++ [hash payload])⟩
      intro hmem
      obtain ⟨u, hu, hequ⟩ := List.mem_map.mp hmem
      have := dedupeTransactions_not_seen hash rest (seen ++ [hash payload]) u hu
      exact this (by rw [hequ]; exact List.mem_append_right _ (List.mem_singleton.mpr rfl))

theorem dedupeTransactions_covers (hash : String → String) (txs : List (String × String))
    (seen : List String) :
    ∀ t ∈ txs, hash t.2 ∈ seen
      ∨ hash t.2 ∈ (dedupeTransactions hash txs seen).map (fun t => hash t.2) := by
  induction txs generalizing seen with
  | nil => simp
  | cons t rest ih =>
    obtain ⟨key, payload⟩ := t
    intro u hu
    by_cases h : hash payload ∈ seen
    · rw [dedupeTransactions, if_pos h]
      rcases List.mem_cons.mp hu with rfl | hu
      · exact Or.inl h
      · exact ih seen u hu
    · rw [dedupeTransactions, if_neg h]
      rcases List.mem_cons.mp hu with rfl | hu
      · exact Or.inr (List.mem_cons_self _ _)
      · rcases ih (seen ++ [hash payload]) u hu with hseen | hacc
        · rcases List.mem_append.mp hseen with hseen | hone
          · exact Or.inl hseen
          · exact Or.inr (by
              rw [List.mem_singleton.mp hone]
              exact List.mem_cons_self _ _)
        · exact Or.inr (List.mem_cons_of_mem _ hacc)

theorem dedupeTransactions_first_occurrence (hash : String → String)
    (txs : List (String × String)) (seen : List String) :
    ∀ t ∈ txs, hash t.2 ∉ seen →
      ∃ u, txs.find? (fun v => hash v.2 == hash t.2) = some u
        ∧ u ∈ dedupeTransactions hash txs seen := by
  induction txs generalizing seen with
  | nil => simp
  | cons hd rest ih =>
    obtain ⟨k, p⟩ := hd
    intro t ht htseen
    by_cases hmatch : hash p == hash t.2
    · have hfind : ((k, p) :: rest).find? (fun v => hash v.2 == hash t.2) = some (k, p) :=
        List.find?_cons_of_pos _ hmatch
      refine ⟨(k, p), hfind, ?_⟩
      have hp : hash p = hash t.2 := by simpa using hmatch
      by_cases hseen : hash p ∈ seen
      · exact absurd (hp ▸ hseen) htseen
      · rw [dedupeTransactions, if_neg hseen]
        exact List.mem_cons_self _ _
    · have hfind : ((k, p) :: rest).find? (fun v => hash v.2 == hash t.2)
          = rest.find? (fun v => hash v.2 == hash t.2) :=
        List.find?_cons_of_neg _ hmatch
      have hne : hash t.2 ≠ hash p := fun he => hmatch (by simp [he])
      have htrest : t ∈ rest := by
        rcases List.mem_cons.mp ht with rfl | h
        · simp at hmatch
        · exact h
      by_cases hseen : hash p ∈ seen
      · rw [dedupeTransactions, if_pos hseen]
        obtain ⟨u, hu, hmem⟩ := ih seen t htrest htseen
        exact ⟨u, hfind ▸ hu, hmem⟩
      · rw [dedupeTransactions, if_neg hseen]
        have htseen2 : hash t.2 ∉ seen ++ [hash p] := by
          intro hm
          rcases List.mem_append.mp hm with hm | hm
          · exact htseen hm
          · exact hne (List.mem_singleton.mp hm)
        obtain ⟨u, hu, hmem⟩ := ih (seen ++ [hash p]) t htrest htseen2
        exact ⟨u, hfind ▸ hu, List.mem_cons_of_mem _ hmem⟩

theorem dedupeTransactions_count (hash : String → String) (txs : List (String × String))
    (seen : List String) :
    (dedupeTransactions hash txs seen).length + skippedTransactionCount hash txs seen
      = txs.length := by
  induction txs generalizing seen with
  | nil => simp [dedupeTransactions, skippedTransactionCount]
  | cons t rest ih =>
    obtain ⟨key, payload⟩ := t
    by_cases h : hash payload ∈ seen
    · rw [dedupeTransactions, skippedTransactionCount, if_pos h, if_pos h]
      have := ih seen
      simp only [List.length_cons]
      omega
    · rw [dedupeTransactions, skippedTransactionCount, if_neg h, if_neg h]
      have := ih (seen ++ [hash payload])
      simp only [List.length_cons]
      omega

/-- C3: processing the opt-in transactions map keeps entries in
submission order (the accepted list is a sublist of the submitted one),
persists no two entries with the same content hash, keeps every
submitted content hash represented, persists for every submitted
transaction the EARLIEST submitted entry carrying its content hash
(`List.find?` returns the first match, so together with the
distinct-hashes conjunct the accepted list is exactly the
first-occurrence subsequence: the earlier of two colliding entries is
persisted and the later one is skipped), and the accepted count equals
the number of submitted transactions minus the number of skipped
duplicates. -/
theorem optin_transactions_dedupe (hash : String → String) (txs : List (String × String)) :
    (dedupeTransactions hash txs []).Sublist txs
    ∧ ((dedupeTransactions hash txs []).map (fun t => hash t.2)).Nodup
    ∧ (∀ t ∈ txs, hash t.2 ∈ (dedupeTransactions hash txs []).map (fun t => hash t.2))
    ∧ (∀ t ∈ txs, ∃ u, txs.find? (fun v => hash v.2 == hash t.2) = some u
        ∧ u ∈ dedupeTransactions hash txs [])
    ∧ (dedupeTransactions hash txs []).length
        = txs.length - skippedTransactionCount hash txs [] := by
  refine ⟨dedupeTransactions_sublist hash txs [],
    dedupeTransactions_hashes_nodup hash txs [], ?_, ?_, ?_⟩
  · intro t ht
    rcases dedupeTransactions_covers hash txs [] t ht with hseen | hacc
    · exact absurd hseen (List.not_mem_nil _)
    · exact hacc
  · intro t ht
    exact dedupeTransactions_first_occurrence hash txs [] t ht (List.not_mem_nil _)
  · have := dedupeTransactions_count hash txs []
    omega

/-- Witness for `optin_transactions_dedupe`: with the identity content
hash, of the two colliding payloads the earlier entry `("A", "x")` is
persisted — the accepted list is exactly `[("A", "x"), ("C", "y")]`,
so the later `("B", "x")` is skipped and the accepted count is one
less than submitted. -/
theorem optin_transactions_dedupe_witness :
    dedupeTransactions id [("A", "x"), ("B", "x"), ("C", "y")] [] = [("A", "x"), ("C", "y")]
    ∧ ("A", "x") ∈ dedupeTransactions id [("A", "x"), ("B", "x"), ("C", "y")] [] := by
  refine ⟨by decide, ?_⟩
  obtain ⟨u, hu, hmem⟩ := (optin_transactions_dedupe id
    [("A", "x"), ("B", "x"), ("C", "y")]).2.2.2.1 ("B", "x") (by decide)
  have hfind : ([("A", "x"), ("B", "x"), ("C", "y")] :
      List (String × String)).find? (fun v => id v.2 == id ("B", "x").2)
        = some ("A", "x") := by decide
  rw [hfind] at hu
  obtain rfl := Option.some.inj hu
  exact hmem

/-!  Topology compiler (`ComposeService.ts`).  -/

/-- A JavaScript open-port preset value: absent (`undefined`), boolean,
number or string. -/
inductive OpenPortValue where
  | none
  | bool (b : Bool)
  | num (n : Int)
  | str (s : String)
  deriving Repr, DecidableEq

/-- JavaScript truthiness of an open-port value (`!openPort` in
`resolvePorts`): `undefined`, `false`, `0` and the empty string are
falsy. -/
def truthyOpenPort : OpenPortValue → Bool
  | OpenPortValue.none => false
  | OpenPortValue.bool b => b
  | OpenPortValue.num n => n != 0
  | OpenPortValue.str s => s != ""

/-- JavaScript template-literal rendering of an open-port value, as in
the `${openPort}:${internalPort}` interpolation. -/
def renderOpenPort : OpenPortValue → String
  | OpenPortValue.none => "undefined"
  | OpenPortValue.bool b => if b then "true" else "false"
  | OpenPortValue.num n => toString n
  | OpenPortValue.str s => s

/-- `resolvePorts` from `ComposeService.run` (ComposeService.ts lines
51-59): falsy values publish nothing, `true` or the string `"true"`
map the internal port to itself, and any other truthy value maps the
internal port to that external value. -/
def resolvePorts (internalPort : Nat) (openPort : OpenPortValue) : List String :=
  if truthyOpenPort openPort = false then
    []
  else if openPort = OpenPortValue.bool true ∨ openPort = OpenPortValue.str "true" then
    [toString internalPort ++ ":" ++ toString internalPort]
  else
    [renderOpenPort openPort ++ ":" ++ toString internalPort]

/-- C5: port resolution is uniform: `true` and `"true"` yield the
single mapping `p:p`, every other truthy numeric or string value `v`
yields the single mapping `v:p`, and every falsy or absent value
yields an empty port list. -/
theorem port_resolution_uniform (p : Nat) :
    resolvePorts p (OpenPortValue.bool true) = [toString p ++ ":" ++ toString p]
    ∧ resolvePorts p (OpenPortValue.str "true") = [toString p ++ ":" ++ toString p]
    ∧ (∀ v : OpenPortValue, truthyOpenPort v = false → resolvePorts p v = [])
    ∧ (∀ n : Int, n ≠ 0 →
        resolvePorts p (OpenPortValue.num n) = [toString n ++ ":" ++ toString p])
    ∧ (∀ s : String, s ≠ "" → s ≠ "true" →
        resolvePorts p (OpenPortValue.str s) = [s ++ ":" ++ toString p]) := by
  refine ⟨rfl, rfl, ?_, ?_, ?_⟩
  · intro v hv
    simp [resolvePorts, hv]
  · intro n hn
    simp [resolvePorts, truthyOpenPort, renderOpenPort, hn]
  · intro s hs hst
    simp [resolvePorts, truthyOpenPort, renderOpenPort, hs, hst]

/-- Witness for `port_resolution_uniform` at internal port 7900:
`true` yields `7900:7900`, `8001` yields `8001:7900`, `false` yields
no entry. -/
theorem port_resolution_uniform_witness :
    resolvePorts 7900 (OpenPortValue.bool true) = ["7900:7900"]
    ∧ resolvePorts 7900 (OpenPortValue.num 8001) = ["8001:7900"]
    ∧ resolvePorts 7900 (OpenPortValue.bool false) = [] := by
  refine ⟨?_, ?_, ?_⟩
  · exact (port_resolution_uniform 7900).1
  · exact (port_resolution_uniform 7900).2.2.2.1 8001 (by decide)
  · exact (port_resolution_uniform 7900).2.2.1 (OpenPortValue.bool false) (by decide)

/-- JavaScript `String.replace` with a plain-string pattern replaces
only the first occurrence; this mirrors that behaviour. -/
def replaceFirst (s pat replacement : String) : String :=
  match s.splitOn pat with
  | [] => s
  | [x] => x
  | x :: xs => x ++ replacement ++ String.intercalate pat xs

/-- The `{image, volumes}` pair `resolveImage` substitutes into a
service definition (ComposeService.ts lines 61-95). -/
structure ImageResolution where
  image : String
  volumes : Option (List String)
  deriving Repr, DecidableEq

/-- The fixed repository name used in registry-push mode
(ComposeService.ts line 67). -/
def awsRepository : String := "nem-repository"

/-- The fixed remote registry host used for tag and push
(ComposeService.ts line 86). -/
def awsRegistryHost : String := "172617417348.dkr.ecr.us-east-1.amazonaws.com"

/-- Body of one ADD directive of the generated build descriptor
(ComposeService.ts lines 69-72): the host side of a `host:image`
volume with a leading `../` stripped or a leading `./` rewritten to
`docker/`, followed by the image path. -/
def addDirectiveBody (v : String) : String :=
  replaceFirst (replaceFirst ((v.splitOn ":").headD "") "../" "") "./" "docker/" ++ " " ++
    (((v.splitOn ":").drop 1).headD "undefined")

/-- Everything the aws branch of `resolveImage` produces: the build
descriptor (Dockerfile) content layering one ADD directive per
would-be volume on the original image, the locally generated image
name, the remote registry url used for `docker tag` and `docker push`,
and the `{image, volumes}` pair returned into the service definition
(ComposeService.ts lines 66-91). -/
structure AwsImageArtifacts where
  addDirectives : List String
  dockerfileContent : String
  generatedImageName : String
  absoluteImageUrl : String
  resolved : ImageResolution
  deriving Repr, DecidableEq

/-- The aws branch of `resolveImage` (ComposeService.ts lines 66-91).
Note that the returned image reference is `generatedImageName`, not
`absoluteImageUrl`. -/
def resolveImageAws (serviceName image : String) (volumes : List String) :
    AwsImageArtifacts :=
  { addDirectives := volumes.map (fun v => "ADD " ++ addDirectiveBody v)
  , dockerfileContent := "FROM docker.io/" ++ image ++ "\n\n"
      ++ String.intercalate "\n" (volumes.map (fun v => "ADD " ++ addDirectiveBody v)) ++ "\n"
  , generatedImageName := awsRepository ++ ":" ++ serviceName
  , absoluteImageUrl := awsRegistryHost ++ "/" ++ (awsRepository ++ ":" ++ serviceName)
  , resolved := { image := awsRepository ++ ":" ++ serviceName, volumes := none } }

/-- `resolveImage` from `ComposeService.run` (ComposeService.ts lines
61-95): in aws mode the generated image replaces the original and the
volumes are dropped; otherwise image and volumes pass through. -/
def resolveImage (aws : Bool) (serviceName image : String) (volumes : List String) :
    ImageResolution :=
  if aws then (resolveImageAws serviceName image volumes).resolved
  else { image := image, volumes := some volumes }

/-- Counterexample to C4 at a concrete service: in aws mode the image
reference substituted into the service definition is the local
`nem-repository:db` name, which differs from the remote registry path
`{registry}/{repository}:{serviceName}`; the latter is only the tag
and push target. -/
theorem registry_push_image_reference_counterexample :
    (resolveImageAws "db" "mongodb/mongodb-community-server"
        ["./mongo:/userconfig/:ro", "../data/mongo:/dbdata:rw"]).resolved.image
      ≠ awsRegistryHost ++ "/" ++ awsRepository ++ ":" ++ "db"
    ∧ (resolveImageAws "db" "mongodb/mongodb-community-server"
        ["./mongo:/userconfig/:ro", "../data/mongo:/dbdata:rw"]).absoluteImageUrl
      = awsRegistryHost ++ "/" ++ awsRepository ++ ":" ++ "db" := by
  constructor
  · decide
  · decide

/-- C4 (amended): in registry-push (aws) mode, for a service with `n`
declared volumes the build descriptor layers exactly `n` ADD
directives on the original image and the service definition keeps no
volumes; the image reference substituted into the service definition
is the local `{repository}:{serviceName}` name, while the fixed remote
registry path `{registry}/{repository}:{serviceName}` is the tag and
push target. -/
theorem registry_push_build_descriptor (serviceName image : String)
    (volumes : List String) :
    (resolveImageAws serviceName image volumes).addDirectives
        = volumes.map (fun v => "ADD " ++ addDirectiveBody v)
    ∧ (resolveImageAws serviceName image volumes).addDirectives.length = volumes.length
    ∧ (resolveImageAws serviceName image volumes).resolved.volumes = none
    ∧ (resolveImageAws serviceName image volumes).resolved.image
        = awsRepository ++ ":" ++ serviceName
    ∧ resolveImage true serviceName image volumes
        = (resolveImageAws serviceName image volumes).resolved
    ∧ (resolveImageAws serviceName image volumes).absoluteImageUrl
        = awsRegistryHost ++ "/" ++ (awsRepository ++ ":" ++ serviceName)
    ∧ (resolveImageAws serviceName image volumes).dockerfileContent
        = "FROM docker.io/" ++ image ++ "\n\n"
            ++ String.intercalate "\n"
                ((resolveImageAws serviceName image volumes).addDirectives)
            ++ "\n" := by
  refine ⟨rfl, ?_, rfl, rfl, rfl, rfl, rfl⟩
  simp [resolveImageAws]

/-- A docker-compose service definition as emitted by
`ComposeService.run`; optional fields are `none` when the source
object omits them. The gateway's static address assignment
`networks.default.ipv4_address` is flattened into one field. -/
structure DockerComposeService where
  container_name : Option String := none
  image : String
  user : Option String := none
  command : String
  stop_signal : Option String := none
  ports : List String := []
  volumes : Option (List String) := none
  depends_on : Option (List String) := none
  restart : Option String := none
  networks_default_ipv4_address : Option String := none
  deriving Repr, DecidableEq

/-- A database entry of the preset (`presetData.databases`). -/
structure DatabasePreset where
  name : String
  openPort : OpenPortValue := OpenPortValue.none
  deriving Repr, DecidableEq

/-- A node entry of the preset (`presetData.nodes`). -/
structure NodePreset where
  name : String
  openPort : OpenPortValue := OpenPortValue.none
  openBrokerPort : OpenPortValue := OpenPortValue.none
  databaseHost : Option String := none
  brokerHost : Option String := none
  deriving Repr, DecidableEq

/-- A gateway entry of the preset (`presetData.gateways`). -/
structure GatewayPreset where
  name : String
  openPort : OpenPortValue := OpenPortValue.none
  databaseHost : String
  deriving Repr, DecidableEq

/-- The slice of the resolved preset `ComposeService.run` consumes. -/
structure ComposePreset where
  databases : List DatabasePreset := []
  nodes : List NodePreset := []
  gateways : List GatewayPreset := []
  mongoImage : String := ""
  symbolServerImage : String := ""
  symbolRestImage : String := ""
  deriving Repr, DecidableEq

/-- The `vol` helper of `ComposeService.run` (ComposeService.ts lines
43-45). -/
def vol (hostFolder imageFolder : String) : String := hostFolder ++ ":" ++ imageFolder

/-- Startup command of a database service (ComposeService.ts line
108). -/
def mongoCommand (name : String) : String :=
  "bash -c \"/bin/bash /userconfig/mongors.sh " ++ name ++
    " & mongod --dbpath=/dbdata --bind_ip=" ++ name ++ "\""

/-- Startup command of a node service (ComposeService.ts line 140):
the recovery check runs before the main server starts. -/
def nodeCommand (name : String) : String :=
  "bash -c \"/bin/bash /symbol-commands/runServerRecover.sh  " ++ name ++
    " && /bin/bash /symbol-commands/startServer.sh " ++ name ++ "\""

/-- Startup command of a broker service (ComposeService.ts line
155). -/
def brokerCommand (name : String) : String :=
  "bash -c \"/bin/bash /symbol-commands/runServerRecover.sh " ++ name ++
    " && /bin/bash /symbol-commands/startBroker.sh " ++ name ++ "\""

/-- Startup command of a gateway service (ComposeService.ts line
175). -/
def gatewayCommand : String :=
  "ash -c \"cd /symbol-workdir && npm start --prefix /app/catapult-rest/rest /symbol-workdir/rest.json\""

/-- The database service emitted for a database preset entry
(ComposeService.ts lines 98-112); `wd` is `BootstrapUtils.workingDir`. -/
def databaseService (user : Option String) (mongoImage : String) (aws : Bool)
    (n : DatabasePreset) : String × DockerComposeService :=
  let info := resolveImage aws n.name mongoImage
    [vol "./mongo" "/userconfig/:ro", vol "../data/mongo" "/dbdata:rw", vol "../state" "/state"]
  (n.name,
    { container_name := some n.name
      image := info.image
      user := user
      command := mongoCommand n.name
      stop_signal := some "SIGINT"
      ports := resolvePorts 27017 n.openPort
      volumes := info.volumes })

/-- The primary node service of one node preset entry
(ComposeService.ts lines 131-150) with its final dependency list: the
database host (when declared, pushed at line 148) followed by the
broker host (when declared, pushed at line 161 onto the same
object). -/
def nodePrimaryService (wd : String) (user : Option String) (symbolServerImage : String)
    (aws : Bool) (n : NodePreset) : DockerComposeService :=
  let info := resolveImage aws n.name symbolServerImage
    [vol ("../" ++ wd ++ "/" ++ n.name) "/symbol-workdir",
     vol "./userconfig" "/symbol-commands", vol "../state" "/state"]
  { image := info.image
    user := user
    command := nodeCommand n.name
    stop_signal := some "SIGINT"
    depends_on := some
      ((match n.databaseHost with | some db => [db] | none => []) ++
        (match n.brokerHost with | some b => [b] | none => []))
    restart := some "on-failure:2"
    ports := resolvePorts 7900 n.openPort
    volumes := info.volumes }

/-- The companion broker service emitted when a node declares a broker
host (ComposeService.ts lines 151-160): it reuses the primary node
service's image and volumes, has its own command and port, and
declares no dependency list of its own. -/
def nodeBrokerService (user : Option String) (nodeService : DockerComposeService)
    (b : String) (openBrokerPort : OpenPortValue) : DockerComposeService :=
  { image := nodeService.image
    user := user
    command := brokerCommand b
    stop_signal := some "SIGINT"
    ports := resolvePorts 7902 openBrokerPort
    restart := some "on-failure:2"
    volumes := nodeService.volumes }

/-- The services emitted for one node preset entry (ComposeService.ts
lines 129-164): the node service itself and, when a broker host is
declared, the companion broker service. -/
def nodeServices (wd : String) (user : Option String) (symbolServerImage : String)
    (aws : Bool) (n : NodePreset) : List (String × DockerComposeService) :=
  match n.brokerHost with
  | none => [(n.name, nodePrimaryService wd user symbolServerImage aws n)]
  | some b =>
    [(n.name, nodePrimaryService wd user symbolServerImage aws n),
     (b, nodeBrokerService user (nodePrimaryService wd user symbolServerImage aws n) b
          n.openBrokerPort)]

/-- The gateway service emitted for a gateway preset entry
(ComposeService.ts lines 166-187): fixed internal port 3000, a
dependency on its linked database host, and the hard-coded static
address 172.20.0.10 on the default network. -/
def gatewayService (wd : String) (user : Option String) (symbolRestImage : String)
    (aws : Bool) (n : GatewayPreset) : String × DockerComposeService :=
  let info := resolveImage aws n.name symbolRestImage
    [vol ("../" ++ wd ++ "/" ++ n.name) "/symbol-workdir"]
  (n.name,
    { image := info.image
      user := user
      command := gatewayCommand
      stop_signal := some "SIGINT"
      ports := resolvePorts 3000 n.openPort
      volumes := info.volumes
      depends_on := some [n.databaseHost]
      networks_default_ipv4_address := some "172.20.0.10" })

/-- The assembled docker-compose document (ComposeService.ts lines
189-203): version 3, one default network with the fixed subnet, and
the database, node/broker and gateway services. -/
structure DockerCompose where
  version : String
  subnet : String
  services : List (String × DockerComposeService)
  deriving Repr, DecidableEq

/-- Service assembly of `ComposeService.run`: databases first, then
per-node services, then gateways, wrapped with the fixed private
network definition. -/
def buildDockerCompose (wd : String) (user : Option String) (aws : Bool)
    (preset : ComposePreset) : DockerCompose :=
  { version := "3"
    subnet := "172.20.0.0/24"
    services :=
      preset.databases.map (databaseService user preset.mongoImage aws)
        ++ (preset.nodes.map (nodeServices wd user preset.symbolServerImage aws)).flatten
        ++ preset.gateways.map (gatewayService wd user preset.symbolRestImage aws) }

/-- `join(a, b)` of node's path module for the paths appearing here. -/
def joinPath (a b : String) : String := a ++ "/" ++ b

/-- Parameters of `ComposeService.run` (`ComposeParams`); `user` holds
the already-resolved docker user. -/
structure ComposeParams where
  target : String
  user : Option String := some "current"
  reset : Bool := false
  aws : Bool := false
  deriving Repr, DecidableEq

/-- Outcome of `ComposeService.run`: either the existing
docker-compose.yml location is reused unchanged, or a freshly built
document is written at that location. -/
inductive ComposeRunOutcome where
  | reused (dockerFile : String)
  | created (dockerFile : String) (compose : DockerCompose)
  deriving Repr, DecidableEq

/-- `ComposeService.run` (ComposeService.ts lines 21-208).
`dockerComposeFileExists` abstracts `fs.existsSync(dockerFile)` before
the run; a requested reset deletes the docker folder first, so the
file no longer exists afterwards.  When the file survives and no reset
was requested the run logs an informational message and returns the
existing location; otherwise it builds and writes the document. -/
def composeRun (currentDir wd : String) (params : ComposeParams)
    (dockerComposeFileExists : Bool) (preset : ComposePreset) :
    Except String ComposeRunOutcome :=
  let target := joinPath currentDir params.target
  let targetDocker := joinPath target "docker"
  let dockerFile := joinPath targetDocker "docker-compose.yml"
  let existsAfterReset := if params.reset then false else dockerComposeFileExists
  if existsAfterReset then
    Except.ok (ComposeRunOutcome.reused dockerFile)
  else
    let user : Option String := if params.aws then none else params.user
    Except.ok (ComposeRunOutcome.created dockerFile (buildDockerCompose wd user params.aws preset))

/-- C6: a node preset entry declaring both a database host and a
broker host yields exactly two services, and the primary node
service's dependency list is exactly the database host followed by
the broker host. -/
theorem node_db_broker_topology (wd : String) (user : Option String) (img : String)
    (aws : Bool) (n : NodePreset) (db b : String)
    (hdb : n.databaseHost = some db) (hbr : n.brokerHost = some b) :
    (nodeServices wd user img aws n).length = 2
    ∧ (nodeServices wd user img aws n).head?
        = some (n.name, nodePrimaryService wd user img aws n)
    ∧ (nodePrimaryService wd user img aws n).depends_on = some [db, b] := by
  refine ⟨?_, ?_, ?_⟩
  · simp [nodeServices, hbr]
  · simp [nodeServices, hbr]
  · simp [nodePrimaryService, hdb, hbr]

/-- Witness for `node_db_broker_topology` on a concrete node with both
hosts declared. -/
theorem node_db_broker_topology_witness :
    (nodeServices "data" (some "u") "img" false
        { name := "node1", databaseHost := some "db1", brokerHost := some "broker1" }).length
      = 2
    ∧ (nodePrimaryService "data" (some "u") "img" false
        { name := "node1", databaseHost := some "db1", brokerHost := some "broker1" }).depends_on
      = some ["db1", "broker1"] :=
  ⟨(node_db_broker_topology "data" (some "u") "img" false
      { name := "node1", databaseHost := some "db1", brokerHost := some "broker1" }
      "db1" "broker1" rfl rfl).1,
   (node_db_broker_topology "data" (some "u") "img" false
      { name := "node1", databaseHost := some "db1", brokerHost := some "broker1" }
      "db1" "broker1" rfl rfl).2.2⟩

/-- Counterexample to C7 at a concrete node entry: the emitted broker
service itself declares no dependency list at all (in particular none
naming the primary node service); the dependency edge between the two
is recorded on the primary node service, whose list ends with the
broker name. -/
theorem broker_dependency_direction_counterexample :
    ((nodeServices "data" (some "u") "img" false
        { name := "node1", databaseHost := some "db1", brokerHost := some "broker1" })[1]?).map
        (fun p => (p.1, p.2.depends_on)) = some ("broker1", none)
    ∧ ((nodeServices "data" (some "u") "img" false
        { name := "node1", databaseHost := some "db1", brokerHost := some "broker1" })[0]?).map
        (fun p => (p.1, p.2.depends_on)) = some ("node1", some ["db1", "broker1"]) := by
  constructor
  · rfl
  · rfl

/-- C7 (amended): the broker service shares the primary node service's
image and volumes and has its own command and its own port (7902
resolved from the broker open-port flag); the dependency edge between
the two services is carried by the primary node service, whose
dependency list gains the broker host name, while the broker service
declares no dependency list of its own. -/
theorem broker_service_shares_node_artifacts (wd : String) (user : Option String)
    (img : String) (aws : Bool) (n : NodePreset) (b : String)
    (hbr : n.brokerHost = some b) :
    nodeServices wd user img aws n
        = [(n.name, nodePrimaryService wd user img aws n),
           (b, nodeBrokerService user (nodePrimaryService wd user img aws n) b
                n.openBrokerPort)]
    ∧ (nodeBrokerService user (nodePrimaryService wd user img aws n) b
        n.openBrokerPort).image = (nodePrimaryService wd user img aws n).image
    ∧ (nodeBrokerService user (nodePrimaryService wd user img aws n) b
        n.openBrokerPort).volumes = (nodePrimaryService wd user img aws n).volumes
    ∧ (nodeBrokerService user (nodePrimaryService wd user img aws n) b
        n.openBrokerPort).command = brokerCommand b
    ∧ (nodeBrokerService user (nodePrimaryService wd user img aws n) b
        n.openBrokerPort).ports = resolvePorts 7902 n.openBrokerPort
    ∧ (nodeBrokerService user (nodePrimaryService wd user img aws n) b
        n.openBrokerPort).depends_on = none
    ∧ (nodePrimaryService wd user img aws n).depends_on
        = some ((match n.databaseHost with | some db => [db] | none => []) ++ [b]) := by
  refine ⟨?_, rfl, rfl, rfl, rfl, rfl, ?_⟩
  · simp [nodeServices, hbr]
  · simp [nodePrimaryService, hbr]

/-- Witness for `broker_service_shares_node_artifacts` on a concrete
node entry. -/
theorem broker_service_shares_node_artifacts_witness :
    (nodeBrokerService (some "u")
        (nodePrimaryService "data" (some "u") "img" false
          { name := "node1", brokerHost := some "broker1" })
        "broker1" OpenPortValue.none).volumes
      = (nodePrimaryService "data" (some "u") "img" false
          { name := "node1", brokerHost := some "broker1" }).volumes :=
  (broker_service_shares_node_artifacts "data" (some "u") "img" false
    { name := "node1", brokerHost := some "broker1" } "broker1" rfl).2.2.1

/-- C8: when docker-compose.yml already exists under the target's
docker folder and reset was not requested, the compose run returns
that artifact's location unchanged as a normal (non-error) result
without building any service definitions. -/
theorem compose_idempotent_short_circuit (currentDir wd : String) (params : ComposeParams)
    (preset : ComposePreset) (hreset : params.reset = false) :
    composeRun currentDir wd params true preset
      = Except.ok (ComposeRunOutcome.reused
          (joinPath (joinPath (joinPath currentDir params.target) "docker")
            "docker-compose.yml")) := by
  simp [composeRun, hreset]

/-- Witness for `compose_idempotent_short_circuit` on a concrete
target. -/
theorem compose_idempotent_short_circuit_witness :
    composeRun "/work" "data" { target := "target" } true {}
      = Except.ok (ComposeRunOutcome.reused "/work/target/docker/docker-compose.yml") := by
  exact compose_idempotent_short_circuit "/work" "data" { target := "target" } {} rfl

/-- C10: every gateway service emitted by the topology compiler
carries the same hard-coded static address 172.20.0.10 on the default
network, so any two gateway entries of a preset yield services with
identical static addresses. -/
theorem gateway_static_addresses_identical (wd : String) (user : Option String)
    (aws : Bool) (preset : ComposePreset) :
    (∀ g ∈ preset.gateways,
      (gatewayService wd user preset.symbolRestImage aws g).2.networks_default_ipv4_address
          = some "172.20.0.10"
        ∧ gatewayService wd user preset.symbolRestImage aws g
            ∈ (buildDockerCompose wd user aws preset).services)
    ∧ preset.gateways.map (fun g =>
          (gatewayService wd user preset.symbolRestImage aws g).2.networks_default_ipv4_address)
        = List.replicate preset.gateways.length (some "172.20.0.10") := by
  constructor
  · intro g hg
    refine ⟨rfl, ?_⟩
    unfold buildDockerCompose
    exact List.mem_append_right _ (List.mem_map_of_mem _ hg)
  · induction preset.gateways with
    | nil => rfl
    | cons g gs ih => simp_all [List.replicate, gatewayService]

/-- Witness for `gateway_static_addresses_identical`: a preset with
two gateways produces two services both pinned to 172.20.0.10. -/
theorem gateway_static_addresses_identical_witness :
    (gatewayService "data" (some "u") "rest" false
        { name := "gw1", databaseHost := "db1" }).2.networks_default_ipv4_address
      = some "172.20.0.10"
    ∧ (gatewayService "data" (some "u") "rest" false
        { name := "gw2", databaseHost := "db2" }).2.networks_default_ipv4_address
      = some "172.20.0.10" :=
  ⟨((gateway_static_addresses_identical "data" (some "u") false
      { gateways := [{ name := "gw1", databaseHost := "db1" },
                     { name := "gw2", databaseHost := "db2" }],
        symbolRestImage := "rest" }).1
      { name := "gw1", databaseHost := "db1" } (by decide)).1,
   ((gateway_static_addresses_identical "data" (some "u") false
      { gateways := [{ name := "gw1", databaseHost := "db1" },
                     { name := "gw2", databaseHost := "db2" }],
        symbolRestImage := "rest" }).1
      { name := "gw2", databaseHost := "db2" } (by decide)).1⟩

/-- A nemesis mosaic as `generateNemesisConfig` sees it: declared
supply and the (by now filled-in) distribution list. -/
structure NemesisMosaic where
  supply : Int
  currencyDistributions : List CurrencyDistribution
  deriving Repr, DecidableEq

/-- The opt-in block of `ConfigService.generateNemesisConfig`
(ConfigService.ts lines 330-392).  It runs when the mosaics field is
present and either an opt-in transactions or balances map is supplied
(a present-but-empty map still triggers it).  The transactions map is
deduplicated by content hash and the accepted count is logged; then
the first mosaic's first distribution entry is taken as the residual
"NGL" account (an empty mosaic list or distribution list aborts with
a TypeError, lines 354-356, before the intended missing-account guard
on line 357 can fire) and the balances are folded in via the
supply-conservation checks. -/
def generateNemesisOptIn (hash : String → String)
    (mosaics : Option (List NemesisMosaic))
    (transactions : Option (List (String × String)))
    (balances : Option (List (String × Int))) :
    Except String (Option (List NemesisMosaic) × Nat) :=
  match mosaics with
  | none => Except.ok (none, 0)
  | some ms =>
    if transactions.isSome || balances.isSome then
      let acceptedCount : Nat :=
        match transactions with
        | some txs => (dedupeTransactions hash txs []).length
        | none => 0
      match ms with
      | [] => Except.error "TypeError: cannot read currencyDistributions of undefined"
      | currencyMosaic :: others =>
        match applyOptInBalances currencyMosaic.currencyDistributions
            currencyMosaic.supply (balances.getD []) with
        | Except.error e => Except.error e
        | Except.ok ds =>
          Except.ok
            (some ({ currencyMosaic with currencyDistributions := ds } :: others),
              acceptedCount)
    else
      Except.ok (some ms, 0)

/-- C9: genesis generation fails fatally when opt-in balances or
transactions are present but the currency mosaic's distribution holds
no beneficiary account to absorb the opt-in balances. -/
theorem optin_missing_beneficiary_fails (hash : String → String) (m : NemesisMosaic)
    (rest : List NemesisMosaic) (transactions : Option (List (String × String)))
    (balances : Option (List (String × Int)))
    (hdist : m.currencyDistributions = [])
    (hopt : transactions.isSome ∨ balances.isSome) :
    ∃ e, generateNemesisOptIn hash (some (m :: rest)) transactions balances
        = Except.error e := by
  have hcond : (transactions.isSome || balances.isSome) = true := by
    rcases hopt with h | h <;> simp [h]
  simp [generateNemesisOptIn, hcond, hdist, applyOptInBalances]

/-- Witness for `optin_missing_beneficiary_fails`: a present but empty
balances map and an empty distribution list abort the run. -/
theorem optin_missing_beneficiary_fails_witness :
    ∃ e, generateNemesisOptIn id
        (some [{ supply := 100, currencyDistributions := [] }]) none (some [])
        = Except.error e :=
  optin_missing_beneficiary_fails id { supply := 100, currencyDistributions := [] } []
    none (some []) rfl (Or.inr rfl)

end SymbolBootstrap
